import Mathlib

/-!
# Verification of the libiff chunk-parsing core

A shallow embedding, in Lean 4, of the parsing engine of the `libiff`
C++ library (IFF-85 / RIFF / RF64 chunk containers).  Every definition
below is translated from a concrete C++ function of the repository:

* `src/include/iff/fourcc.hh`              — `fourcc`
* `src/include/iff/parse_options.hh`       — `parse_options`
* `src/src/libiff/input.cc` / `input.hh`   — `reader`, `subreader`
* `src/src/libiff/chunk_reader.cc`         — `chunk_reader::read_string`
* `src/src/libiff/riff_chunk_reader.cc`    — `riff_chunk_reader`
* `src/src/libiff/iff85_chunk_reader.cc`   — `iff85_chunk_reader`
* `src/src/libiff/handler_registry.cc`     — `handler_registry`
* `src/src/libiff/chunk_iterator.cc`       — `chunk_iterator::get_iterator`
* `src/src/libiff/iff85_chunk_iterator.cc` — `iff85_chunk_iterator`
* `src/src/libiff/riff_chunk_iterator.cc`  — `riff_chunk_iterator`

Machine integers: the C++ code works in `std::uint32_t` / `std::uint64_t`.
All quantities are modelled as `Nat`; wrap-around is made explicit with
`% 2^32` exactly where the C++ computation is performed in 32-bit
arithmetic (the ds64 table-size check).  64-bit wrap-around is never
reachable in the modelled operations: every addition performed by the
readers is guarded by a bound that keeps the result at or below a
`uint64` value already in hand, and this is proved rather than assumed.

Streams: an `std::istream` over an in-memory byte buffer is modelled as
a list of bytes plus a cursor.  A short read returns the available
bytes; reading zero bytes at the end is the EOF signal; seeking past
the end fails (as `istream::seekg` does for an `istringstream`).
Exceptions (`io_error` / `parse_error`) are modelled with `Except Err`.
-/

set_option autoImplicit false

namespace LibIff

/-! ## FourCC (`src/include/iff/fourcc.hh`)

`fourcc` is four raw `char`s.  We model each byte as a `Nat` (the
values fed in by the parser are always bytes read from the stream,
hence < 256). -/

structure FourCC where
  b0 : Nat
  b1 : Nat
  b2 : Nat
  b3 : Nat
deriving DecidableEq, Repr

/-- Build a `FourCC` from four characters, as the `"...."_4cc` literal does. -/
def fourccOfChars (c0 c1 c2 c3 : Char) : FourCC :=
  ⟨c0.toNat, c1.toNat, c2.toNat, c3.toNat⟩

/-- `fourcc::to_string`: the four raw characters, unmodified. -/
def FourCC.toStr (f : FourCC) : String :=
  String.mk [Char.ofNat f.b0, Char.ofNat f.b1, Char.ofNat f.b2, Char.ofNat f.b3]

def ccFORM : FourCC := fourccOfChars 'F' 'O' 'R' 'M'
def ccLIST : FourCC := fourccOfChars 'L' 'I' 'S' 'T'
def ccCAT  : FourCC := fourccOfChars 'C' 'A' 'T' ' '
def ccPROP : FourCC := fourccOfChars 'P' 'R' 'O' 'P'
def ccRIFF : FourCC := fourccOfChars 'R' 'I' 'F' 'F'
def ccRIFX : FourCC := fourccOfChars 'R' 'I' 'F' 'X'
def ccRF64 : FourCC := fourccOfChars 'R' 'F' '6' '4'
def ccBW64 : FourCC := fourccOfChars 'B' 'W' '6' '4'
def ccDS64 : FourCC := fourccOfChars 'd' 's' '6' '4'
def ccDATA : FourCC := fourccOfChars 'd' 'a' 't' 'a'

/-! ## Errors (`src/include/iff/exceptions.hh`)

The library throws two kinds of exception: `io_error` (THROW_IO) and
`parse_error` (THROW_PARSE). -/

inductive Err where
  | ioErr (msg : String)
  | parseErr (msg : String)
deriving DecidableEq, Repr

/-- `true` exactly on a thrown `parse_error`. -/
def isParseError {α : Type} : Except Err α → Bool
  | .error (.parseErr _) => true
  | _ => false

/-- `true` exactly on a thrown `io_error`. -/
def isIoError {α : Type} : Except Err α → Bool
  | .error (.ioErr _) => true
  | _ => false

/-- `true` when no exception was thrown. -/
def isOk {α : Type} : Except Err α → Bool
  | .ok _ => true
  | _ => false

/-! ## Byte order (`src/include/iff/byte_order.hh`) -/

inductive ByteOrder where
  | little
  | big
deriving DecidableEq, Repr

/-! ## The stream reader (`src/src/libiff/input.cc`, class `reader`)

`reader` wraps an `std::istream`; the iterators only ever use it over an
in-memory buffer positioned at its start.  `Rdr.pos ≤ Rdr.data.length`
is maintained because `seek` rejects positions past the end and `read`
advances by at most the bytes available. -/

structure Rdr where
  data : List Nat
  pos : Nat
deriving DecidableEq, Repr

/-- `reader::tell`. -/
def Rdr.tell (r : Rdr) : Nat := r.pos

/-- `reader::size` (total length of the underlying stream). -/
def Rdr.size (r : Rdr) : Nat := r.data.length

/-- `reader::read(dst, n)`: delivers as many of the `n` requested bytes
as the stream still holds (a short count at EOF, like `istream::read`
plus `gcount`), advancing the cursor by the returned count. -/
def Rdr.readRaw (r : Rdr) (n : Nat) : List Nat × Rdr :=
  let actual := min n (r.data.length - r.pos)
  ((r.data.drop r.pos).take actual, ⟨r.data, r.pos + actual⟩)

/-- `reader::seek(off, set)`: absolute seek; fails (throws `io_error`)
when the target lies past the end of the stream. -/
def Rdr.seekTo (r : Rdr) (off : Nat) : Except Err Rdr :=
  if off > r.data.length then .error (.ioErr "Cannot seek to offset")
  else .ok ⟨r.data, off⟩

/-- `reader_base::read_fourcc`: reads 4 bytes, throws `io_error` on a
short read. -/
def Rdr.readFourcc (r : Rdr) : Except Err (FourCC × Rdr) :=
  match Rdr.readRaw r 4 with
  | ([a, b, c, d], r2) => .ok (⟨a, b, c, d⟩, r2)
  | _ => .error (.ioErr "Failed to read FourCC")

/-- Little-endian decode of a byte list (least significant byte first). -/
def decodeLE : List Nat → Nat
  | [] => 0
  | b :: rest => b + 256 * decodeLE rest

/-- Big-endian decode of a byte list (most significant byte first). -/
def decodeBE : List Nat → Nat
  | [] => 0
  | b :: rest => b * 256 ^ rest.length + decodeBE rest

/-- `reader_base::read<std::uint32_t>(bo)`: 4 bytes decoded in the given
byte order; `io_error` on a short read. -/
def Rdr.readU32 (r : Rdr) (bo : ByteOrder) : Except Err (Nat × Rdr) :=
  let (bytes, r2) := Rdr.readRaw r 4
  if bytes.length = 4 then
    .ok ((match bo with | .little => decodeLE bytes | .big => decodeBE bytes), r2)
  else .error (.ioErr "Failed to read 4 bytes")

/-- `reader_base::read<std::uint64_t>(bo)`: 8 bytes decoded in the given
byte order; `io_error` on a short read. -/
def Rdr.readU64 (r : Rdr) (bo : ByteOrder) : Except Err (Nat × Rdr) :=
  let (bytes, r2) := Rdr.readRaw r 8
  if bytes.length = 8 then
    .ok ((match bo with | .little => decodeLE bytes | .big => decodeBE bytes), r2)
  else .error (.ioErr "Failed to read 8 bytes")

/-! ## The RIFF chunk reader (`src/src/libiff/riff_chunk_reader.cc`)

`riff_chunk_reader` holds a non-owning pointer to the iterator's main
`reader` plus `m_start_offset` (where the chunk's payload starts in the
file), `m_size` (the declared payload size) and `m_bytes_read`.  Every
`read` seeks the main reader absolutely to `start + bytesRead` first,
so only the file contents and those three numbers matter; we carry the
file bytes in the state. -/

structure RiffRd where
  file : List Nat
  start : Nat
  size : Nat
  bytesRead : Nat
deriving DecidableEq, Repr

/-- `riff_chunk_reader::offset`. -/
def RiffRd.offset (s : RiffRd) : Nat := s.bytesRead

/-- `riff_chunk_reader::remaining` (`m_size - m_bytes_read`). -/
def RiffRd.remaining (s : RiffRd) : Nat := s.size - s.bytesRead

/-- `riff_chunk_reader::read(dst, n)`.  Returns the byte count actually
read together with the bytes themselves (the contents written to `dst`)
and the updated reader.  The null-`dst` guard of the C++ code has no
counterpart here: the model always passes a real buffer.  The absolute
seek throws `io_error` when `start + bytesRead` lies past EOF. -/
def RiffRd.read (s : RiffRd) (n : Nat) : Except Err (Nat × List Nat × RiffRd) :=
  let toRead := min n s.remaining
  if toRead = 0 then .ok (0, [], s)
  else if s.start + s.bytesRead > s.file.length then
    .error (.ioErr "Cannot seek to offset")
  else
    let actual := min toRead (s.file.length - (s.start + s.bytesRead))
    .ok (actual, (s.file.drop (s.start + s.bytesRead)).take actual,
         ⟨s.file, s.start, s.size, s.bytesRead + actual⟩)

/-- `riff_chunk_reader::skip(n)`: `false` (state unchanged) when
`n > remaining()`, otherwise advances `m_bytes_read` by `n`. -/
def RiffRd.skip (s : RiffRd) (n : Nat) : Bool × RiffRd :=
  if n > s.remaining then (false, s)
  else (true, ⟨s.file, s.start, s.size, s.bytesRead + n⟩)

/-! ## The IFF-85 chunk reader (`src/src/libiff/iff85_chunk_reader.cc`)

`iff85_chunk_reader` owns a `subreader` (window `[subStart,
subStart+subSize)` over the parent reader, the window being the padded
chunk) and clamps at `m_chunk_size`.  State: the subreader's fields
(`input.cc`, class `subreader`) plus `m_chunk_size` and
`m_bytes_read`. -/

structure Iff85Rd where
  file : List Nat
  subStart : Nat
  subSize : Nat
  subPos : Nat
  chunkSize : Nat
  bytesRead : Nat
deriving DecidableEq, Repr

/-- `iff85_chunk_reader::offset`. -/
def Iff85Rd.offset (s : Iff85Rd) : Nat := s.bytesRead

/-- `iff85_chunk_reader::remaining` (`m_chunk_size - m_bytes_read`). -/
def Iff85Rd.remaining (s : Iff85Rd) : Nat := s.chunkSize - s.bytesRead

/-- `iff85_chunk_reader::size`. -/
def Iff85Rd.size (s : Iff85Rd) : Nat := s.chunkSize

/-- `iff85_chunk_reader::read(dst, n)`.  Clamps `n` at
`chunkSize - bytesRead`, then calls `subreader::read`, which clamps at
the window and at EOF of the parent; any exception from the subreader
(the parent's absolute seek failing past EOF) is swallowed and `0` is
returned with the state unchanged, per the `catch (...)` in the C++
function.  Returns count, bytes delivered, and the new state. -/
def Iff85Rd.read (s : Iff85Rd) (n : Nat) : Nat × List Nat × Iff85Rd :=
  if n = 0 then (0, [], s)
  else
    let available := s.chunkSize - s.bytesRead
    if available = 0 then (0, [], s)
    else
      let n1 := min n available
      -- subreader::read (input.cc): clamp at the window, seek the parent
      -- to subStart + subPos, read, advance the window position.
      let subAvail := s.subSize - s.subPos
      if subAvail = 0 then (0, [], s)
      else
        let n2 := min n1 subAvail
        if s.subStart + s.subPos > s.file.length then
          -- parent seek throws; iff85_chunk_reader::read catches and returns 0
          (0, [], s)
        else
          let actual := min n2 (s.file.length - (s.subStart + s.subPos))
          (actual, (s.file.drop (s.subStart + s.subPos)).take actual,
           ⟨s.file, s.subStart, s.subSize, s.subPos + actual,
            s.chunkSize, s.bytesRead + actual⟩)

/-- `iff85_chunk_reader::skip(n)`: `false` when `n` exceeds
`chunkSize - bytesRead`; otherwise seeks the subreader forward by `n`
(which throws — caught, returning `false` — if that leaves the window)
and advances `m_bytes_read`. -/
def Iff85Rd.skip (s : Iff85Rd) (n : Nat) : Bool × Iff85Rd :=
  let available := s.chunkSize - s.bytesRead
  if n > available then (false, s)
  else if s.subPos + n > s.subSize then (false, s)
  else (true, ⟨s.file, s.subStart, s.subSize, s.subPos + n,
               s.chunkSize, s.bytesRead + n⟩)

/-! ## Operation sequences over a chunk reader

For the `offset + remaining = size` invariant we close the two reader
models under arbitrary sequences of `read`/`skip` calls. -/

inductive RdOp where
  | read (n : Nat)
  | skip (n : Nat)
deriving DecidableEq, Repr

/-- One `read`/`skip` call on a `riff_chunk_reader`; a thrown `io_error`
leaves the state unchanged (the throw happens before `m_bytes_read` is
touched). -/
def RiffRd.step (s : RiffRd) : RdOp → RiffRd
  | .read n =>
      match s.read n with
      | .ok (_, _, s2) => s2
      | .error _ => s
  | .skip n => (s.skip n).2

def RiffRd.run (s : RiffRd) : List RdOp → RiffRd
  | [] => s
  | op :: ops => (s.step op).run ops

/-- One `read`/`skip` call on an `iff85_chunk_reader` (these never
throw: all failures are swallowed into a `0` / `false` result). -/
def Iff85Rd.step (s : Iff85Rd) : RdOp → Iff85Rd
  | .read n => (s.read n).2.2
  | .skip n => (s.skip n).2

def Iff85Rd.run (s : Iff85Rd) : List RdOp → Iff85Rd
  | [] => s
  | op :: ops => (s.step op).run ops

/-- States an `iff85_chunk_reader` can actually be in: the iterator
creates it with `subPos = bytesRead = 0` over a subreader window of the
padded chunk (`iff85_chunk_iterator.cc`, `read_next_chunk`), and reads
and skips move `subPos` and `bytesRead` in lock-step. -/
def Iff85Rd.wf (s : Iff85Rd) : Prop :=
  s.bytesRead ≤ s.chunkSize ∧ s.subPos = s.bytesRead ∧ s.chunkSize ≤ s.subSize

instance (s : Iff85Rd) : Decidable s.wf := by
  unfold Iff85Rd.wf; infer_instance

/-! ## `chunk_reader::read_string` (`src/src/libiff/chunk_reader.cc`)

Shared base-class code: it calls the virtual `read`.  We instantiate it
at the `riff_chunk_reader` model (the IFF-85 instantiation differs only
in the underlying `read`, which the `size == 0` early return never
reaches). -/

/-- Trim at the first NUL, as `result.find` + `resize` do. -/
def trimAtNul (bytes : List Nat) : List Nat :=
  bytes.takeWhile (fun b => b ≠ 0)

/-- `chunk_reader::read_string(n)` over a `riff_chunk_reader`. -/
def RiffRd.readString (s : RiffRd) (n : Nat) :
    Except Err (Option (List Nat) × RiffRd) :=
  if n = 0 then .ok (none, s)
  else
    match s.read n with
    | .error e => .error e
    | .ok (actual, bytes, s2) =>
        if actual ≠ n then .ok (none, s2)
        else .ok (some (trimAtNul bytes), s2)

/-! ## Handler registry (`src/src/libiff/handler_registry.cc`)

The registry keeps three `std::unordered_multimap`s.  Only
`equal_range` is ever observed, so the cross-key layout of the hash
table is irrelevant; what matters is the order of elements *within* an
equal-key group.  libstdc++ (the library the project builds against)
inserts a new node with an existing key immediately before the first
node of its group, so `equal_range` yields equal-key elements newest
first — the reverse of registration order (verified against
g++ 12 / libstdc++).  `mmInsert` mirrors exactly that: prepend within
the group, append otherwise.  Handlers are identified by `Nat` tags;
`emit` returns the tags in invocation order. -/

def mmInsert {κ : Type} [DecidableEq κ] (t : List (κ × Nat)) (k : κ) (v : Nat) :
    List (κ × Nat) :=
  match t with
  | [] => [(k, v)]
  | (k0, v0) :: rest =>
      if k0 = k then (k, v) :: (k0, v0) :: rest
      else (k0, v0) :: mmInsert rest k v

/-- `unordered_multimap::equal_range`, values in table order. -/
def mmEqualRange {κ : Type} [DecidableEq κ] (t : List (κ × Nat)) (k : κ) :
    List Nat :=
  (t.filter (fun p => p.1 = k)).map (fun p => p.2)

structure Registry where
  formHandlers : List ((FourCC × FourCC) × Nat)
  containerHandlers : List ((FourCC × FourCC) × Nat)
  globalHandlers : List (FourCC × Nat)
deriving Repr

def Registry.empty : Registry := ⟨[], [], []⟩

/-- `handler_registry::on_chunk_in_form`. -/
def Registry.onChunkInForm (r : Registry) (formType chunkId : FourCC) (h : Nat) :
    Registry :=
  { r with formHandlers := mmInsert r.formHandlers (formType, chunkId) h }

/-- `handler_registry::on_chunk_in_container`. -/
def Registry.onChunkInContainer (r : Registry) (containerType chunkId : FourCC)
    (h : Nat) : Registry :=
  { r with containerHandlers := mmInsert r.containerHandlers (containerType, chunkId) h }

/-- `handler_registry::on_chunk`. -/
def Registry.onChunk (r : Registry) (chunkId : FourCC) (h : Nat) : Registry :=
  { r with globalHandlers := mmInsert r.globalHandlers chunkId h }

/-- The part of a `chunk_event` that `emit` consults. -/
structure EventCtx where
  id : FourCC
  currentForm : Option FourCC
  currentContainer : Option FourCC
deriving DecidableEq, Repr

/-- `handler_registry::emit`: collect FORM-scoped, then container-scoped,
then global matches, then invoke the collected handlers in order.  The
returned list is the invocation order. -/
def Registry.emit (r : Registry) (ev : EventCtx) : List Nat :=
  (match ev.currentForm with
   | some f => mmEqualRange r.formHandlers (f, ev.id)
   | none => []) ++
  (match ev.currentContainer with
   | some c => mmEqualRange r.containerHandlers (c, ev.id)
   | none => []) ++
  mmEqualRange r.globalHandlers ev.id

/-- Registration events, to describe a whole construction of a registry. -/
inductive RegOp where
  | inForm (formType chunkId : FourCC) (h : Nat)
  | inContainer (containerType chunkId : FourCC) (h : Nat)
  | global (chunkId : FourCC) (h : Nat)
deriving DecidableEq, Repr

def Registry.apply (r : Registry) : RegOp → Registry
  | .inForm f c h => r.onChunkInForm f c h
  | .inContainer c i h => r.onChunkInContainer c i h
  | .global c h => r.onChunk c h

def Registry.build (ops : List RegOp) : Registry :=
  ops.foldl Registry.apply Registry.empty

/-- The FORM-tier registrations matching `(f, id)`, in registration order. -/
def formRegs (ops : List RegOp) (f id : FourCC) : List Nat :=
  ops.filterMap (fun op =>
    match op with
    | .inForm f0 c0 h => if f0 = f ∧ c0 = id then some h else none
    | _ => none)

/-- The container-tier registrations matching `(c, id)`, in registration order. -/
def containerRegs (ops : List RegOp) (c id : FourCC) : List Nat :=
  ops.filterMap (fun op =>
    match op with
    | .inContainer c0 i0 h => if c0 = c ∧ i0 = id then some h else none
    | _ => none)

/-- The global-tier registrations matching `id`, in registration order. -/
def globalRegs (ops : List RegOp) (id : FourCC) : List Nat :=
  ops.filterMap (fun op =>
    match op with
    | .global c0 h => if c0 = id then some h else none
    | _ => none)

/-! ## RF64 state and the ds64 protocol (`src/src/libiff/riff_chunk_iterator.cc`)

`rf64_state` (riff_chunk_iterator.hh): authoritative `riff_size`,
`data_size`, `sample_count`, plus `override_table :
unordered_map<fourcc, vector<uint64>>` and `override_index :
unordered_map<fourcc, size_t>`.  The two maps are modelled as
association lists (only lookups and per-key updates are performed, so
iteration order never matters). -/

structure Rf64State where
  riffSize : Nat
  dataSize : Nat
  sampleCount : Nat
  overrideTable : List (FourCC × List Nat)
  overrideIndex : List (FourCC × Nat)
deriving DecidableEq, Repr

def Rf64State.init : Rf64State := ⟨0, 0, 0, [], []⟩

/-- `unordered_map::find` on an association list. -/
def alistFind {α : Type} (l : List (FourCC × α)) (k : FourCC) : Option α :=
  match l with
  | [] => none
  | (k0, v0) :: rest => if k0 = k then some v0 else alistFind rest k

/-- `override_table[id].push_back(v)`: append to the entry, creating it
(as `operator[]` does) when absent. -/
def tablePush (l : List (FourCC × List Nat)) (k : FourCC) (v : Nat) :
    List (FourCC × List Nat) :=
  match l with
  | [] => [(k, [v])]
  | (k0, vs) :: rest =>
      if k0 = k then (k0, vs ++ [v]) :: rest
      else (k0, vs) :: tablePush rest k v

/-- `override_index[id] = i` (insert or overwrite). -/
def indexSet (l : List (FourCC × Nat)) (k : FourCC) (i : Nat) :
    List (FourCC × Nat) :=
  match l with
  | [] => [(k, i)]
  | (k0, v0) :: rest =>
      if k0 = k then (k0, i) :: rest
      else (k0, v0) :: indexSet rest k i

/-- `override_index[id]` read through `operator[]`: absent keys read as
`0` (value-initialized). -/
def indexGet (l : List (FourCC × Nat)) (k : FourCC) : Nat :=
  (alistFind l k).getD 0

/-- One entry of the ds64 override table: store the override, and mirror
the backwards-compatibility special case for `data` when the fixed
`data_size` field was zero (`parse_ds64_chunk`, loop body). -/
def ds64StoreEntry (st : Rf64State) (id : FourCC) (sz : Nat) : Rf64State :=
  let st2 := { st with overrideTable := tablePush st.overrideTable id sz }
  if id = ccDATA ∧ st2.dataSize = 0 then { st2 with dataSize := sz }
  else st2

/-- The table-reading loop of `parse_ds64_chunk`: `count` entries, each
a FourCC followed by a 64-bit little-endian size. -/
def ds64ReadTable : Nat → Rf64State → Rdr → Except Err (Rf64State × Rdr)
  | 0, st, r => .ok (st, r)
  | Nat.succ k, st, r => do
      let (id, r2) ← r.readFourcc
      let (sz, r3) ← r2.readU64 .little
      ds64ReadTable k (ds64StoreEntry st id sz) r3

/-- `riff_chunk_iterator::parse_ds64_chunk(chunk_size)`.  The reader is
positioned just past the ds64 header.  The fixed fields are always
little-endian.  `expected_size` is computed by the C++ code in 32-bit
arithmetic (`table_count * 12` and the additions are performed in
`unsigned int` before widening to `uint64`), hence the explicit
`% 2^32`. -/
def parseDs64Chunk (st : Rf64State) (chunkSize : Nat) (r : Rdr) :
    Except Err (Rf64State × Rdr) :=
  if chunkSize < 24 then
    .error (.parseErr "Invalid ds64 chunk: size is too small (minimum 24 bytes required)")
  else do
    let (riffSz, r1) ← r.readU64 .little
    let (dataSz, r2) ← r1.readU64 .little
    let (sampleCnt, r3) ← r2.readU64 .little
    let st1 := { st with riffSize := riffSz, dataSize := dataSz, sampleCount := sampleCnt }
    if chunkSize ≥ 28 then do
      let (tableCount, r4) ← r3.readU32 .little
      let expectedSize := (24 + 4 + tableCount * 12) % 4294967296
      if chunkSize < expectedSize then
        .error (.parseErr "Invalid ds64 chunk: table entries do not fit in the chunk")
      else
        ds64ReadTable tableCount st1 r4
    else
      .ok (st1, r3)

/-- `riff_chunk_iterator::get_size_override(id, offset, size_32)`.  The
`offset` argument is unused by the C++ function and omitted here.
Returns the resolved size and the updated `rf64_state` (the FIFO branch
advances `override_index[id]`, and `operator[]` default-inserts `0`
for a key not seen before). -/
def getSizeOverride (isRf64 : Bool) (st : Rf64State) (id : FourCC)
    (size32 : Nat) : Nat × Rf64State :=
  if ¬isRf64 ∨ size32 ≠ 4294967295 then (size32, st)
  else if id = ccRF64 ∨ id = ccRIFF then (st.riffSize, st)
  else if id = ccDATA ∧ st.dataSize > 0 then (st.dataSize, st)
  else
    match alistFind st.overrideTable id with
    | some vs =>
        if vs ≠ [] then
          let i := indexGet st.overrideIndex id
          if i < vs.length then
            (vs.getD i 0, { st with overrideIndex := indexSet st.overrideIndex id (i + 1) })
          else (size32, { st with overrideIndex := indexSet st.overrideIndex id i })
        else (size32, st)
    | none => (size32, st)

/-- `n` successive sentinel (`0xFFFFFFFF`) queries for the same
identifier, collecting the resolved sizes in order. -/
def consumeOverrides (isRf64 : Bool) (st : Rf64State) (id : FourCC) :
    Nat → List Nat
  | 0 => []
  | Nat.succ k =>
      let (v, st2) := getSizeOverride isRf64 st id 4294967295
      v :: consumeOverrides isRf64 st2 id k

/-! ## Parse options (`src/include/iff/parse_options.hh`) -/

structure ParseOptions where
  strict : Bool := true
  maxChunkSize : Nat := 4294967296
  allowRf64 : Bool := true
  maxDepth : Nat := 64
deriving DecidableEq, Repr

def defaultOptions : ParseOptions := {}

/-! ## Iterator data model (`src/include/iff/chunk_iterator.hh`)

`chunk_header`, `chunk_iterator::chunk_info` and
`chunk_iterator::container_state`, translated field by field.  The
`reader` unique-pointer of `chunk_info` is modelled by `hasReader` plus
the parameters the iterator passes to the chunk-reader constructor.
The warning callback only produces output, never alters control flow
beyond what the `strict` flag decides, so emitted warnings are not
recorded. -/

structure ChunkHeader where
  id : FourCC
  size : Nat
  fileOffset : Nat
  isContainer : Bool
  type : Option FourCC
deriving DecidableEq, Repr

/-- `chunk_header()` default: `fourcc` defaults to four spaces. -/
def ChunkHeader.init : ChunkHeader := ⟨⟨32, 32, 32, 32⟩, 0, 0, false, none⟩

structure ChunkInfo where
  header : ChunkHeader
  hasReader : Bool
  readerStart : Nat
  readerSize : Nat
  currentForm : Option FourCC
  currentContainer : Option FourCC
  depth : Nat
  totalSizeWithPadding : Nat
  inListWithProps : Bool
  isPropChunk : Bool
deriving DecidableEq, Repr

/-- `m_current{}` value-initialization in the `chunk_iterator` constructor. -/
def ChunkInfo.init : ChunkInfo :=
  ⟨ChunkHeader.init, false, 0, 0, none, none, 0, 0, false, false⟩

structure ContainerState where
  id : FourCC
  type : Option FourCC
  endOffset : Nat
  depth : Nat
  hasPropChunks : Bool
deriving DecidableEq, Repr

/-- The container-exit loop at the head of both `read_next_chunk`
implementations: pop every frame whose `end_offset` the cursor has
reached.  The stack is a list with the innermost frame first. -/
def popExited (r : Rdr) : List ContainerState → List ContainerState
  | [] => []
  | top :: rest =>
      if r.tell ≥ top.endOffset then popExited r rest else top :: rest

/-! ## The RIFF iterator (`src/src/libiff/riff_chunk_iterator.cc`) -/

structure RiffIt where
  rdr : Rdr
  opts : ParseOptions
  byteOrder : ByteOrder
  isRf64 : Bool
  rf64 : Rf64State
  stack : List ContainerState
  current : ChunkInfo
  ended : Bool
deriving DecidableEq, Repr

/-- `riff_chunk_iterator::update_container_context`: clear both contexts
then walk the stack from the outermost frame to the innermost; every
RIFF/RIFX/RF64 frame with a type overwrites `current_form` (so the
innermost wins), while `current_container` is set by the *outermost*
LIST frame only (the `!m_current.current_container` guard as the walk
runs bottom-up). -/
def riffUpdateCtx (stack : List ContainerState) :
    Option FourCC × Option FourCC :=
  stack.reverse.foldl
    (fun (acc : Option FourCC × Option FourCC) info =>
      let form := if (info.id = ccRIFF ∨ info.id = ccRIFX ∨ info.id = ccRF64)
                     ∧ info.type.isSome then info.type else acc.1
      let cont := if info.id = ccLIST ∧ acc.2 = none then some info.id else acc.2
      (form, cont))
    (none, none)

/-- `riff_chunk_iterator::process_container`.  Assumes `st.current`
already holds the new header and depth.  On a depth breach: strict mode
throws `parse_error`; lenient mode seeks past the container and reads
the next chunk.  Otherwise reads the 4-byte type tag (a failure there is
rethrown as `parse_error`), pushes the frame, and patches the contexts
exactly as lines 291–298 do (`current_container` only for LIST,
`current_form` only for RIFF/RIFX/RF64). -/
def riffProcessContainer (readNext : RiffIt → Except Err (Bool × RiffIt))
    (st : RiffIt) : Except Err (Bool × RiffIt) :=
  let hd := st.current.header
  if st.current.depth ≥ st.opts.maxDepth then
    if st.opts.strict then
      .error (.parseErr ("Container would exceed maximum nesting depth: " ++ hd.id.toStr))
    else
      match st.rdr.seekTo (hd.fileOffset + 8 + hd.size) with
      | .error e => .error e
      | .ok r2 => readNext { st with rdr := r2 }
  else
    match st.rdr.readFourcc with
    | .error _ => .error (.parseErr "Failed to read container type")
    | .ok (containerType, r2) =>
        let cur1 := { st.current with header := { hd with type := some containerType } }
        let totalPad := if hd.size % 2 = 1 then hd.size + 1 else hd.size
        let frame : ContainerState :=
          ⟨hd.id, some containerType, hd.fileOffset + 8 + hd.size, st.current.depth, false⟩
        let cur2 := { cur1 with totalSizeWithPadding := totalPad }
        let cur3 := if hd.id = ccLIST
                    then { cur2 with currentContainer := some hd.id } else cur2
        let cur4 := if hd.id = ccRIFF ∨ hd.id = ccRIFX ∨ hd.id = ccRF64
                    then { cur3 with currentForm := some containerType } else cur3
        .ok (true, { st with rdr := r2, stack := frame :: st.stack,
                             current := { cur4 with hasReader := false } })

/-- The body of `riff_chunk_iterator::read_next_chunk` after the
container-exit loop — the C++ `try` block.  Errors: `parse_error` is
rethrown by the enclosing catch; `io_error` reaches the recovery code,
handled by the caller `riffReadNext`. -/
def riffReadBody (readNext : RiffIt → Except Err (Bool × RiffIt))
    (st : RiffIt) : Except Err (Bool × RiffIt) := do
  let startPos := st.rdr.tell
  let (chunkId, r1) ← st.rdr.readFourcc
  let (size32, r2) ← r1.readU32 st.byteOrder
  if st.isRf64 ∧ chunkId = ccDS64 then
    -- the hidden ds64 chunk: parse it, fix the RF64 frame's end offset,
    -- skip whatever of the chunk was not consumed plus padding, recurse
    let ds64Start := r2.tell
    let (rf64b, r3) ← parseDs64Chunk st.rf64 size32 r2
    let stack2 :=
      match st.stack with
      | top :: rest =>
          if top.id = ccRF64 then
            { top with endOffset := min (8 + rf64b.riffSize) r3.size } :: rest
          else st.stack
      | [] => st.stack
    let bytesRead := r3.tell - ds64Start
    -- `remaining = chunk_size - bytes_read` in uint64: when the table ran
    -- past the declared chunk size the subtraction wraps and the seek to
    -- `tell + remaining` lands far past EOF, throwing io_error
    if bytesRead > size32 then
      throw (Err.ioErr "Cannot seek to offset")
    else
      let remaining := size32 - bytesRead
      let r4 ← if remaining > 0 then r3.seekTo (r3.tell + remaining) else pure r3
      let r5 ← if size32 % 2 = 1 then r4.seekTo (r4.tell + 1) else pure r4
      readNext { st with rdr := r5, rf64 := rf64b, stack := stack2 }
  else
    -- resolve the 64-bit size
    let (chunkSize0, rf64a) :=
      if st.isRf64 ∧ chunkId = ccRF64 ∧ size32 = 4294967295 then
        (r2.size - startPos - 8, st.rf64)
      else
        getSizeOverride st.isRf64 st.rf64 chunkId size32
    -- size limit (strict: parse error; lenient: warn and clamp)
    let chunkSize ←
      if chunkSize0 > st.opts.maxChunkSize then
        if st.opts.strict then
          throw (Err.parseErr ("Chunk exceeds maximum allowed size: " ++ chunkId.toStr))
        else pure st.opts.maxChunkSize
      else pure chunkSize0
    let header : ChunkHeader :=
      ⟨chunkId, chunkSize, startPos,
       chunkId = ccRIFF ∨ chunkId = ccRIFX ∨ chunkId = ccRF64 ∨ chunkId = ccLIST,
       none⟩
    let depth := match st.stack with | [] => 0 | top :: _ => top.depth + 1
    let ctx := riffUpdateCtx st.stack
    let cur := { st.current with
                 header := header, depth := depth,
                 currentForm := ctx.1, currentContainer := ctx.2 }
    let st2 := { st with rdr := r2, rf64 := rf64a, current := cur }
    if header.isContainer then
      riffProcessContainer readNext st2
    else
      let totalPad := if chunkSize % 2 = 1 then chunkSize + 1 else chunkSize
      let dataStart := r2.tell
      .ok (true, { st2 with current :=
        { cur with totalSizeWithPadding := totalPad, hasReader := true,
                   readerStart := dataStart, readerSize := chunkSize } })

/-- `riff_chunk_iterator::read_next_chunk`, with fuel for the C++
self-recursion (ds64 consumption, lenient depth skip, error recovery);
fuel exhaustion is a model artifact reported as a distinguished
`io_error` and never reached with fuel above the recursion depth.

The catch clauses: `parse_error` is rethrown.  After an `io_error` the
C++ stream is in a failed state, so the `m_reader->tell()` at the head
of the catch block itself throws, landing in the inner `catch (...)`:
with no frames left the function returns `false`; with frames it pops
one and retries — the retry's own container-exit loop then rethrows the
`io_error` from `tell()` unless the stack became empty, in which case
the retry's header read reports the failed stream as an `io_error`
caught by the recovery, which then returns `false`. -/
def riffReadNext : Nat → RiffIt → Except Err (Bool × RiffIt)
  | 0, _ => .error (.ioErr "model artifact: fuel exhausted")
  | Nat.succ fuel, st =>
      let st1 := { st with stack := popExited st.rdr st.stack }
      match riffReadBody (riffReadNext fuel) st1 with
      | .ok res => .ok res
      | .error (.parseErr m) => .error (.parseErr m)
      | .error (.ioErr m) =>
          match st1.stack with
          | [] => .ok (false, st1)
          | [_] => .ok (false, { st1 with stack := [] })
          | _ :: _ :: _ => .error (.ioErr m)

/-- The `riff_chunk_iterator` constructor: peek the magic, seek back to
offset 0, fix byte order and the RF64 flag from the root identifier
(`BW64` is *not* among the recognized roots), then read the first
chunk.  `allow_rf64` is never consulted anywhere in the class. -/
def riffIterInit (opts : ParseOptions) (data : List Nat) :
    Except Err RiffIt := do
  match (Rdr.readRaw ⟨data, 0⟩ 4).1 with
  | [a, b, c, d] =>
      let rootId : FourCC := ⟨a, b, c, d⟩
      let (bo, isRf64) ←
        if rootId = ccRIFF then pure (ByteOrder.little, false)
        else if rootId = ccRIFX then pure (ByteOrder.big, false)
        else if rootId = ccRF64 then pure (ByteOrder.little, true)
        else throw (Err.parseErr ("Invalid RIFF format: " ++ rootId.toStr))
      let st0 : RiffIt :=
        ⟨⟨data, 0⟩, opts, bo, isRf64, Rf64State.init, [], ChunkInfo.init, false⟩
      let (gotChunk, st1) ← riffReadNext (data.length + 8) st0
      pure (if gotChunk then st1 else { st1 with ended := true })
  | _ => throw (Err.parseErr "Invalid RIFF format")

/-- `riff_chunk_iterator::advance`. -/
def riffAdvance (st : RiffIt) : Except Err RiffIt := do
  if st.ended then pure st
  else
    let afterSeek : Except Err RiffIt :=
      if st.current.hasReader then
        match st.rdr.seekTo (st.current.header.fileOffset + 8 +
                             st.current.totalSizeWithPadding) with
        | .error _ => .ok { st with ended := true }
        | .ok r2 => .ok { st with
                          rdr := r2,
                          current := { st.current with hasReader := false } }
      else .ok st
    match afterSeek with
    | .error e => throw e
    | .ok st1 =>
        if st1.ended then pure st1
        else do
          let (gotChunk, st2) ← riffReadNext (st1.rdr.data.length + 8) st1
          pure (if gotChunk then st2 else { st2 with ended := true })

/-! ## The IFF-85 iterator (`src/src/libiff/iff85_chunk_iterator.cc`) -/

structure Iff85It where
  rdr : Rdr
  opts : ParseOptions
  stack : List ContainerState
  current : ChunkInfo
  ended : Bool
deriving DecidableEq, Repr

/-- `iff85_chunk_iterator::update_container_context`: walk the stack
from the innermost frame outwards; the first FORM frame fixes
`current_form`, the first LIST/CAT/PROP frame fixes
`current_container`. -/
def iff85UpdateCtx (stack : List ContainerState) :
    Option FourCC × Option FourCC :=
  stack.foldl
    (fun (acc : Option FourCC × Option FourCC) state =>
      let form := if state.id = ccFORM ∧ acc.1 = none then state.type else acc.1
      let cont := if (state.id = ccLIST ∨ state.id = ccCAT ∨ state.id = ccPROP)
                     ∧ acc.2 = none then some state.id else acc.2
      (form, cont))
    (none, none)

/-- `iff85_chunk_iterator::process_container`.  Depth breach: strict
throws `parse_error`, lenient seeks past the container and recurses.
Otherwise: CAT has no type tag and its children start right after the
header; FORM/LIST/PROP read a 4-byte type tag (a short read there makes
the function return `false` via its own `catch`), and the frame's end
offset is `tell + size - 4` after the tag.  Neither path ever touches
`has_prop_chunks` on any frame, nor `in_list_with_props` /
`is_prop_chunk` on the descriptor. -/
def iff85ProcessContainer (readNext : Iff85It → Except Err (Bool × Iff85It))
    (st : Iff85It) : Except Err (Bool × Iff85It) :=
  let hd := st.current.header
  if st.current.depth ≥ st.opts.maxDepth then
    if st.opts.strict then
      .error (.parseErr ("Container would exceed maximum nesting depth: " ++ hd.id.toStr))
    else
      match st.rdr.seekTo (hd.fileOffset + 8 + hd.size) with
      | .error e => .error e
      | .ok r2 => readNext { st with rdr := r2 }
  else
    let typed : Except Err (Option FourCC × Nat × Rdr) :=
      if hd.id = ccCAT then .ok (none, st.rdr.tell + hd.size, st.rdr)
      else
        match st.rdr.readFourcc with
        | .error e => .error e
        | .ok (tag, r2) => .ok (some tag, r2.tell + hd.size - 4, r2)
    match typed with
    | .error _ => .ok (false, st)
    | .ok (typeTag, contentEnd, r2) =>
        let cur1 := { st.current with header := { hd with type := typeTag } }
        let frame : ContainerState :=
          ⟨hd.id, typeTag, contentEnd, st.current.depth, false⟩
        let stack2 := frame :: st.stack
        let ctx := iff85UpdateCtx stack2
        .ok (true, { st with
                     rdr := r2, stack := stack2,
                     current := { cur1 with
                                  currentForm := ctx.1, currentContainer := ctx.2,
                                  hasReader := false } })

/-- The `try` body of `iff85_chunk_iterator::read_next_chunk`:
8-byte header (big-endian size), size-limit enforcement, then either
container processing or the creation of a subreader of the padded size
wrapped in an `iff85_chunk_reader`. -/
def iff85ReadBody (readNext : Iff85It → Except Err (Bool × Iff85It))
    (st : Iff85It) : Except Err (Bool × Iff85It) := do
  let startPos := st.rdr.tell
  let (chunkId, r1) ← st.rdr.readFourcc
  let (size32, r2) ← r1.readU32 .big
  let chunkSize ←
    if size32 > st.opts.maxChunkSize then
      if st.opts.strict then
        throw (Err.parseErr ("Chunk exceeds maximum allowed size: " ++ chunkId.toStr))
      else pure st.opts.maxChunkSize
    else pure size32
  let header : ChunkHeader :=
    ⟨chunkId, chunkSize, startPos,
     chunkId = ccFORM ∨ chunkId = ccLIST ∨ chunkId = ccCAT ∨ chunkId = ccPROP,
     none⟩
  let depth := match st.stack with | [] => 0 | top :: _ => top.depth + 1
  let ctx := iff85UpdateCtx st.stack
  let cur := { st.current with
               header := header, depth := depth,
               currentForm := ctx.1, currentContainer := ctx.2 }
  let st2 := { st with rdr := r2, current := cur }
  if header.isContainer then
    iff85ProcessContainer readNext st2
  else
    let totalPad := if chunkSize % 2 = 1 then chunkSize + 1 else chunkSize
    .ok (true, { st2 with current :=
      { cur with totalSizeWithPadding := totalPad, hasReader := true,
                 readerStart := r2.tell, readerSize := chunkSize } })

/-- `iff85_chunk_iterator::read_next_chunk`: container-exit loop, then
the `try` body; `parse_error` is rethrown, any other exception simply
yields `false` (end of iteration). -/
def iff85ReadNext : Nat → Iff85It → Except Err (Bool × Iff85It)
  | 0, _ => .error (.ioErr "model artifact: fuel exhausted")
  | Nat.succ fuel, st =>
      let st1 := { st with stack := popExited st.rdr st.stack }
      match iff85ReadBody (iff85ReadNext fuel) st1 with
      | .ok res => .ok res
      | .error (.parseErr m) => .error (.parseErr m)
      | .error (.ioErr _) => .ok (false, st1)

/-- The `iff85_chunk_iterator` constructor: no magic peek of its own;
just read the first chunk. -/
def iff85IterInit (opts : ParseOptions) (data : List Nat) :
    Except Err Iff85It := do
  let st0 : Iff85It := ⟨⟨data, 0⟩, opts, [], ChunkInfo.init, false⟩
  let (gotChunk, st1) ← iff85ReadNext (data.length + 8) st0
  pure (if gotChunk then st1 else { st1 with ended := true })

/-- `iff85_chunk_iterator::advance`. -/
def iff85Advance (st : Iff85It) : Except Err Iff85It := do
  if st.ended then pure st
  else
    let afterSeek : Except Err Iff85It :=
      if st.current.hasReader then
        match st.rdr.seekTo (st.current.header.fileOffset + 8 +
                             st.current.totalSizeWithPadding) with
        | .error _ => .ok { st with ended := true }
        | .ok r2 => .ok { st with
                          rdr := r2,
                          current := { st.current with hasReader := false } }
      else .ok st
    match afterSeek with
    | .error e => throw e
    | .ok st1 =>
        if st1.ended then pure st1
        else do
          let (gotChunk, st2) ← iff85ReadNext (st1.rdr.data.length + 8) st1
          pure (if gotChunk then st2 else { st2 with ended := true })

/-! ## The format-detecting factory (`src/src/libiff/chunk_iterator.cc`) -/

inductive AnyIter where
  | iff85 (st : Iff85It)
  | riff (st : RiffIt)
deriving Repr

/-- `chunk_iterator::get_iterator(stream, options)`: read the first four
bytes (a failure is a `parse_error`), seek back, and dispatch on the
magic: FORM/LIST/`CAT ` build an `iff85_chunk_iterator`;
RIFF/RF64/RIFX build a `riff_chunk_iterator`; anything else — `BW64`
included — throws `parse_error` with the observed identifier in the
message.  The `options` argument is passed through to the constructor;
no field of it is consulted here. -/
def getIterator (opts : ParseOptions) (data : List Nat) :
    Except Err AnyIter := do
  match (Rdr.readRaw ⟨data, 0⟩ 4).1 with
  | [a, b, c, d] =>
      let id : FourCC := ⟨a, b, c, d⟩
      if id = ccFORM ∨ id = ccLIST ∨ id = ccCAT then
        AnyIter.iff85 <$> iff85IterInit opts data
      else if id = ccRIFF ∨ id = ccRF64 ∨ id = ccRIFX then
        AnyIter.riff <$> riffIterInit opts data
      else
        throw (Err.parseErr ("Unknown file format: " ++ id.toStr))
  | _ => throw (Err.parseErr "Failed to read file magic")

/-! ## Iteration traces

For the concrete end-to-end evaluations: collect, per visited chunk, the
descriptor fields the unit tests inspect. -/

structure Desc where
  id : FourCC
  depth : Nat
  isContainer : Bool
  inListWithProps : Bool
  isPropChunk : Bool
deriving DecidableEq, Repr

def ChunkInfo.toDesc (c : ChunkInfo) : Desc :=
  ⟨c.header.id, c.depth, c.header.isContainer, c.inListWithProps, c.isPropChunk⟩

/-- Walk an IFF-85 iterator to the end (fuel bounds the step count),
collecting the descriptors in visit order, as the loop in
`test_prop_support.cc` does. -/
def iff85Collect : Nat → Iff85It → Except Err (List Desc)
  | 0, _ => .error (.ioErr "model artifact: fuel exhausted")
  | Nat.succ fuel, st =>
      if st.ended then .ok []
      else do
        let rest ← iff85Collect fuel (← iff85Advance st)
        pure (st.current.toDesc :: rest)

/-- Walk a RIFF iterator to the end, collecting descriptors. -/
def riffCollect : Nat → RiffIt → Except Err (List Desc)
  | 0, _ => .error (.ioErr "model artifact: fuel exhausted")
  | Nat.succ fuel, st =>
      if st.ended then .ok []
      else do
        let rest ← riffCollect fuel (← riffAdvance st)
        pure (st.current.toDesc :: rest)

/-! ## Concrete byte streams

The inputs used by the counterexamples and code-bug evaluations.  They
are transcriptions of streams the repository's own unit tests build
(`test_prop_support.cc`, `test_bw64.cc`, `test_security.cc`). -/

/-- The IFF-85 stream of `test_prop_support.cc` /
`create_list_with_prop()`: `LIST(ILBM)` of size 44 containing
`PROP(ILBM)` (with an empty `DATA` child) followed by `FORM(ILBM)`
(with an empty `TEST` child).  Sizes are big-endian. -/
def propTestStream : List Nat :=
  [76, 73, 83, 84,  0, 0, 0, 44,  73, 76, 66, 77,
   80, 82, 79, 80,  0, 0, 0, 12,  73, 76, 66, 77,
   68, 65, 84, 65,  0, 0, 0, 0,
   70, 79, 82, 77,  0, 0, 0, 12,  73, 76, 66, 77,
   84, 69, 83, 84,  0, 0, 0, 0]

def ccDATAbig : FourCC := fourccOfChars 'D' 'A' 'T' 'A'
def ccTEST : FourCC := fourccOfChars 'T' 'E' 'S' 'T'

/-- A minimal well-formed RF64 file: root size sentinel `0xFFFFFFFF`,
a 24-byte `ds64` (riff_size = 48, data_size = 0, sample_count = 0),
then a 4-byte `data` chunk. -/
def rf64TestStream : List Nat :=
  [82, 70, 54, 52,  255, 255, 255, 255,  87, 65, 86, 69,
   100, 115, 54, 52,  24, 0, 0, 0,
   48, 0, 0, 0, 0, 0, 0, 0,
   0, 0, 0, 0, 0, 0, 0, 0,
   0, 0, 0, 0, 0, 0, 0, 0,
   100, 97, 116, 97,  4, 0, 0, 0,  1, 2, 3, 4]

/-- The same stream with a `BW64` root, as `test_bw64.cc` /
`create_bw64_file(true, true)` builds it. -/
def bw64TestStream : List Nat :=
  [66, 87, 54, 52,  255, 255, 255, 255,  87, 65, 86, 69,
   100, 115, 54, 52,  24, 0, 0, 0,
   48, 0, 0, 0, 0, 0, 0, 0,
   0, 0, 0, 0, 0, 0, 0, 0,
   0, 0, 0, 0, 0, 0, 0, 0,
   100, 97, 116, 97,  4, 0, 0, 0,  1, 2, 3, 4]

/-- Payload of a ds64 chunk declaring `table_count = 357913942`
(`0x15555556`, little-endian `56 55 55 15`): 24 zero fixed bytes, the
count, and a single 12-byte table entry before EOF.  The entries
mathematically required would occupy `28 + 12·357913942 = 4294967332`
bytes, far more than the declared chunk size of 40. -/
def ds64OverflowBytes : List Nat :=
  List.replicate 24 0 ++ [86, 85, 85, 21] ++ [116, 115, 116, 32] ++ List.replicate 8 0

/-- Payload of the `test_security.cc` ds64: declared size 32, table
count 1000 (`E8 03 00 00`) — no 32-bit wrap, so the check fires. -/
def ds64BadCountBytes : List Nat :=
  List.replicate 24 0 ++ [232, 3, 0, 0]

/-- `true` when `get_iterator` returned a RIFF-variant iterator that is
positioned on a first chunk (construction succeeded, stream not ended). -/
def acceptsRiffIter : Except Err AnyIter → Bool
  | .ok (.riff st) => !st.ended
  | _ => false

/-- `true` when `get_iterator` returned an IFF-85-variant iterator that
is positioned on a first chunk. -/
def acceptsIff85Iter : Except Err AnyIter → Bool
  | .ok (.iff85 st) => !st.ended
  | _ => false

/-- The message of a thrown `parse_error`, if that is the outcome. -/
def parseErrMsg {α : Type} : Except Err α → Option String
  | .error (.parseErr m) => some m
  | _ => none

/-! ## C1 -/

/-- C1: the claim says that with `allow_rf64 = false` an RF64/BW64 root
makes `get_iterator` fail with a parse error, and that with
`allow_rf64 = true` (the default) such a root is accepted.  The code
never consults `parse_options::allow_rf64`: an RF64 root is accepted
even with `allow_rf64 = false` (first conjunct), and a BW64 root is
rejected with a parse error even with the default `allow_rf64 = true`
(second conjunct) because neither the factory nor the RIFF iterator
recognizes `BW64`.  Both directions of the claim fail on the code. -/
theorem allow_rf64_option_is_ignored :
    acceptsRiffIter
      (getIterator { defaultOptions with allowRf64 := false } rf64TestStream) = true
    ∧ isParseError (getIterator defaultOptions bw64TestStream) = true := by
  constructor <;> rfl

/-! ## C2 -/

/-- C2: `get_iterator` dispatches FORM/LIST/CAT to the IFF-85 iterator
and RIFF/RIFX/RF64 to the RIFF iterator, but — contrary to the claim
and to `test_bw64.cc`, which requires BW64 files to be recognized — a
`BW64` root falls through to the failure branch and throws
`parse_error` with the observed identifier in the message. -/
theorem factory_dispatch_rejects_bw64 :
    parseErrMsg (getIterator defaultOptions bw64TestStream) =
      some ("Unknown file format: " ++ ccBW64.toStr)
    ∧ acceptsRiffIter (getIterator defaultOptions rf64TestStream) = true
    ∧ acceptsIff85Iter (getIterator defaultOptions propTestStream) = true := by
  refine ⟨rfl, rfl, rfl⟩

/-! ## C6 -/

/-- C6: a ds64 chunk whose declared table count implies a total size
beyond the chunk's declared size must raise a parse error.  The C++
check computes `24 + 4 + table_count * 12` in 32-bit arithmetic, so a
count of 357913942 — which mathematically needs 4294967332 bytes, far
beyond the declared 40 — wraps to 36 ≤ 40: the check passes and the
parser starts consuming table entries until the stream runs out,
surfacing an `io_error` instead of the required parse error.  With a
count that does not wrap (the `test_security.cc` input: size 32, count
1000) the check fires as documented. -/
theorem ds64_table_count_check_wraps :
    28 + 357913942 * 12 > 40
    ∧ (24 + 4 + 357913942 * 12) % 4294967296 = 36
    ∧ isParseError (parseDs64Chunk Rf64State.init 40 ⟨ds64OverflowBytes, 0⟩) = false
    ∧ isIoError (parseDs64Chunk Rf64State.init 40 ⟨ds64OverflowBytes, 0⟩) = true
    ∧ isParseError (parseDs64Chunk Rf64State.init 32 ⟨ds64BadCountBytes, 0⟩) = true := by
  refine ⟨by norm_num, by norm_num, rfl, rfl, rfl⟩

/-! ## C9 -/

/-- C9: after the iterator visits a PROP that is the first child of a
LIST, the claim (and `test_prop_support.cc`, lines 137 and 146) wants
`is_prop_chunk = true` on the PROP descriptor and
`in_list_with_props = true` from the subsequent FORM on.  Neither
`has_prop_chunks` on any frame nor the two descriptor flags is ever
assigned anywhere in the implementation, so the whole traversal of the
test's own stream reports `false` everywhere, while identifiers and
depths come out exactly as the test expects. -/
theorem prop_flags_never_set_in_traversal :
    (iff85IterInit defaultOptions propTestStream).bind (iff85Collect 8) =
      .ok [⟨ccLIST, 0, true, false, false⟩,
           ⟨ccPROP, 1, true, false, false⟩,
           ⟨ccDATAbig, 2, false, false, false⟩,
           ⟨ccFORM, 1, true, false, false⟩,
           ⟨ccTEST, 2, false, false, false⟩] := by
  rfl

/-! ## C3, C4, C5 — chunk-reader arithmetic -/

lemma riffStepPres (s : RiffRd) (op : RdOp) (h : s.bytesRead ≤ s.size) :
    (s.step op).bytesRead ≤ (s.step op).size
    ∧ (s.step op).size = s.size := by
  cases op with
  | read n =>
      simp only [RiffRd.step, RiffRd.read, RiffRd.remaining]
      split_ifs with h1 h2
      · exact ⟨h, rfl⟩
      · exact ⟨h, rfl⟩
      · dsimp only
        exact ⟨by omega, by omega⟩
  | skip n =>
      simp only [RiffRd.step, RiffRd.skip, RiffRd.remaining]
      split_ifs with h1
      · exact ⟨h, rfl⟩
      · dsimp only
        exact ⟨by omega, by omega⟩

lemma riffRunPres : ∀ (ops : List RdOp) (s : RiffRd),
    s.bytesRead ≤ s.size →
    (s.run ops).bytesRead ≤ (s.run ops).size
  | [], _, h => h
  | op :: ops, s, h => riffRunPres ops (s.step op) (riffStepPres s op h).1

lemma iff85StepPres (t : Iff85Rd) (op : RdOp) (h : t.wf) :
    (t.step op).wf := by
  obtain ⟨h1, h2, h3⟩ := h
  cases op with
  | read n =>
      simp only [Iff85Rd.step, Iff85Rd.read]
      split_ifs with c1 c2 c3 c4
      · exact ⟨h1, h2, h3⟩
      · exact ⟨h1, h2, h3⟩
      · exact ⟨h1, h2, h3⟩
      · exact ⟨h1, h2, h3⟩
      · refine ⟨?_, ?_, ?_⟩ <;> dsimp only <;> omega
  | skip n =>
      simp only [Iff85Rd.step, Iff85Rd.skip]
      split_ifs with c1 c2
      · exact ⟨h1, h2, h3⟩
      · exact ⟨h1, h2, h3⟩
      · refine ⟨?_, ?_, ?_⟩ <;> dsimp only <;> omega

lemma iff85RunPres : ∀ (ops : List RdOp) (t : Iff85Rd),
    t.wf → (t.run ops).wf
  | [], _, h => h
  | op :: ops, t, h => iff85RunPres ops (t.step op) (iff85StepPres t op h)

lemma iff85RunSize : ∀ (ops : List RdOp) (t : Iff85Rd),
    (t.run ops).chunkSize = t.chunkSize := by
  intro ops
  induction ops with
  | nil => intro t; rfl
  | cons op ops ih =>
      intro t
      have hstep : (t.step op).chunkSize = t.chunkSize := by
        cases op with
        | read n =>
            simp only [Iff85Rd.step, Iff85Rd.read]
            split_ifs <;> rfl
        | skip n =>
            simp only [Iff85Rd.step, Iff85Rd.skip]
            split_ifs <;> rfl
      simpa [Iff85Rd.run, hstep] using ih (t.step op)

/-- C3: for both chunk-reader implementations, after any sequence of
`read`/`skip` calls starting from a well-formed state (the iterator
vends readers with `bytesRead = 0`, so every vended reader qualifies),
`offset() + remaining() = size()` holds and `offset()` never exceeds
`size()`. -/
theorem reader_offset_remaining_size_invariant :
    (∀ (ops : List RdOp) (s : RiffRd), s.bytesRead ≤ s.size →
        (s.run ops).offset + (s.run ops).remaining = (s.run ops).size
        ∧ (s.run ops).offset ≤ (s.run ops).size)
    ∧ (∀ (ops : List RdOp) (t : Iff85Rd), t.wf →
        (t.run ops).offset + (t.run ops).remaining = (t.run ops).size
        ∧ (t.run ops).offset ≤ (t.run ops).size) := by
  constructor
  · intro ops s h
    have h2 := riffRunPres ops s h
    simp only [RiffRd.offset, RiffRd.remaining]
    omega
  · intro ops t h
    have h2 := iff85RunPres ops t h
    obtain ⟨h3, -, -⟩ := h2
    simp only [Iff85Rd.offset, Iff85Rd.remaining, Iff85Rd.size]
    omega

/-- Witness for C3 at a concrete reader state and operation sequence. -/
theorem reader_offset_remaining_size_invariant_witness :
    ((⟨[1, 2, 3, 4, 5, 6, 7, 8], 1, 4, 0⟩ : RiffRd).bytesRead ≤
       (⟨[1, 2, 3, 4, 5, 6, 7, 8], 1, 4, 0⟩ : RiffRd).size)
    ∧ (let f := (⟨[1, 2, 3, 4, 5, 6, 7, 8], 1, 4, 0⟩ : RiffRd).run
         [RdOp.read 3, RdOp.skip 2, RdOp.read 9, RdOp.skip 0]
       f.offset + f.remaining = f.size ∧ f.offset ≤ f.size)
    ∧ (⟨[1, 2, 3, 4, 5, 6, 7, 8], 2, 4, 0, 3, 0⟩ : Iff85Rd).wf
    ∧ (let g := (⟨[1, 2, 3, 4, 5, 6, 7, 8], 2, 4, 0, 3, 0⟩ : Iff85Rd).run
         [RdOp.read 2, RdOp.read 2, RdOp.skip 1]
       g.offset + g.remaining = g.size ∧ g.offset ≤ g.size) :=
  ⟨by decide,
   reader_offset_remaining_size_invariant.1
     [RdOp.read 3, RdOp.skip 2, RdOp.read 9, RdOp.skip 0] _ (by decide),
   by decide,
   reader_offset_remaining_size_invariant.2
     [RdOp.read 2, RdOp.read 2, RdOp.skip 1] _ (by decide)⟩

/-- The concrete reader used by the C4 counterexample: a freshly vended
4-byte chunk whose bytes are all present in the file. -/
def c4state : RiffRd := ⟨[9, 9, 9, 9, 9, 9, 9, 9], 0, 4, 0⟩

/-- C4 counterexample: the claim says the returned count is zero *iff*
`remaining()` is zero at entry.  `read(dst, 0)` returns 0 on a reader
with `remaining() = 4`, so the "only if" direction fails at `n = 0`. -/
theorem read_zero_request_counterexample :
    RiffRd.read c4state 0 = .ok (0, [], c4state)
    ∧ ¬((0 : Nat) = 0 ↔ c4state.remaining = 0) := by
  refine ⟨rfl, by decide⟩

/-- C4 as amended: when the underlying source actually holds the
chunk's declared bytes, `read(dst, n)` returns exactly
`min n remaining()` — hence never more than `remaining()` at entry —
advances `offset()` by exactly the returned count, and returns zero iff
`n = 0` or `remaining() = 0` at entry. -/
theorem read_count_characterization :
    (∀ (s : RiffRd) (n : Nat), s.bytesRead ≤ s.size →
        s.start + s.size ≤ s.file.length →
        s.read n = .ok (min n s.remaining,
            (s.file.drop (s.start + s.bytesRead)).take (min n s.remaining),
            ⟨s.file, s.start, s.size, s.bytesRead + min n s.remaining⟩)
        ∧ min n s.remaining ≤ s.remaining
        ∧ (min n s.remaining = 0 ↔ n = 0 ∨ s.remaining = 0))
    ∧ (∀ (t : Iff85Rd) (n : Nat), t.wf →
        t.subStart + t.subSize ≤ t.file.length →
        t.read n = (min n t.remaining,
            (t.file.drop (t.subStart + t.subPos)).take (min n t.remaining),
            ⟨t.file, t.subStart, t.subSize, t.subPos + min n t.remaining,
             t.chunkSize, t.bytesRead + min n t.remaining⟩)
        ∧ min n t.remaining ≤ t.remaining
        ∧ (min n t.remaining = 0 ↔ n = 0 ∨ t.remaining = 0)) := by
  constructor
  · intro s n h hfile
    refine ⟨?_, min_le_right _ _, by simp only [RiffRd.remaining]; omega⟩
    simp only [RiffRd.read, RiffRd.remaining]
    split_ifs with h1 h2
    · rw [h1]
      simp
    · exfalso
      omega
    · have e : min (min n (s.size - s.bytesRead))
          (s.file.length - (s.start + s.bytesRead)) = min n (s.size - s.bytesRead) := by
        omega
      rw [e]
  · intro t n h hfile
    obtain ⟨h1, h2, h3⟩ := h
    refine ⟨?_, min_le_right _ _, by simp only [Iff85Rd.remaining]; omega⟩
    simp only [Iff85Rd.read, Iff85Rd.remaining]
    split_ifs with c1 c2 c3 c4
    · rw [c1]
      simp
    · have e : min n (t.chunkSize - t.bytesRead) = 0 := by omega
      rw [e]
      simp
    · -- subreader window exhausted: unreachable, since under `wf` the
      -- remaining chunk bytes never exceed the remaining window
      exfalso
      omega
    · -- parent seek past EOF: unreachable when the file holds the window
      exfalso
      omega
    · have e1 : min (min n (t.chunkSize - t.bytesRead)) (t.subSize - t.subPos)
          = min n (t.chunkSize - t.bytesRead) := by
        omega
      have e2 : min (min n (t.chunkSize - t.bytesRead))
          (t.file.length - (t.subStart + t.subPos)) = min n (t.chunkSize - t.bytesRead) := by
        omega
      rw [e1, e2]

/-- Witness for C4 (amended) at a concrete reader and request. -/
theorem read_count_characterization_witness :
    ((⟨[9, 9, 9, 9, 9, 9, 9, 9], 0, 4, 1⟩ : RiffRd).bytesRead ≤ 4
      ∧ 0 + 4 ≤ 8
      ∧ RiffRd.read ⟨[9, 9, 9, 9, 9, 9, 9, 9], 0, 4, 1⟩ 2 =
          .ok (min 2 (RiffRd.remaining ⟨[9, 9, 9, 9, 9, 9, 9, 9], 0, 4, 1⟩),
               [9, 9], ⟨[9, 9, 9, 9, 9, 9, 9, 9], 0, 4, 3⟩))
    ∧ ((⟨[9, 9, 9, 9, 9, 9, 9, 9], 2, 4, 0, 3, 0⟩ : Iff85Rd).wf
      ∧ 2 + 4 ≤ 8
      ∧ Iff85Rd.read ⟨[9, 9, 9, 9, 9, 9, 9, 9], 2, 4, 0, 3, 0⟩ 5 =
          (min 5 (Iff85Rd.remaining ⟨[9, 9, 9, 9, 9, 9, 9, 9], 2, 4, 0, 3, 0⟩),
           [9, 9, 9], ⟨[9, 9, 9, 9, 9, 9, 9, 9], 2, 4, 3, 3, 3⟩)) :=
  ⟨⟨by decide, by decide, by
      have h := (read_count_characterization.1 ⟨[9, 9, 9, 9, 9, 9, 9, 9], 0, 4, 1⟩ 2
        (by decide) (by decide)).1
      simpa using h⟩,
   ⟨by decide, by decide, by
      have h := (read_count_characterization.2 ⟨[9, 9, 9, 9, 9, 9, 9, 9], 2, 4, 0, 3, 0⟩ 5
        (by decide) (by decide)).1
      simpa using h⟩⟩

/-- C5: `skip(n)` succeeds exactly when `n ≤ remaining()`; success
advances `offset()` by exactly `n`, failure leaves the state untouched.
For the IFF-85 reader the window-bounds seek inside `skip` can never
fail on a well-formed state, because `subPos + n ≤ chunkSize ≤ subSize`. -/
theorem skip_iff_within_remaining :
    (∀ (s : RiffRd) (n : Nat),
        ((s.skip n).1 = true ↔ n ≤ s.remaining)
        ∧ (n ≤ s.remaining → (s.skip n).2.offset = s.offset + n)
        ∧ (s.remaining < n → (s.skip n).2 = s))
    ∧ (∀ (t : Iff85Rd) (n : Nat), t.wf →
        ((t.skip n).1 = true ↔ n ≤ t.remaining)
        ∧ (n ≤ t.remaining → (t.skip n).2.offset = t.offset + n)
        ∧ (t.remaining < n → (t.skip n).2 = t)) := by
  constructor
  · intro s n
    simp only [RiffRd.skip, RiffRd.remaining, RiffRd.offset]
    split_ifs with h1
    · refine ⟨by simp; omega, by omega, fun _ => rfl⟩
    · refine ⟨by simp; omega, fun _ => rfl, by omega⟩
  · intro t n h
    obtain ⟨h1, h2, h3⟩ := h
    simp only [Iff85Rd.skip, Iff85Rd.remaining, Iff85Rd.offset]
    split_ifs with c1 c2
    · refine ⟨by simp; omega, by omega, fun _ => rfl⟩
    · -- seek failure branch: contradicts wf when n ≤ remaining
      omega
    · refine ⟨by simp; omega, fun _ => rfl, by omega⟩

/-- Witness for C5 at concrete readers: a skip within bounds and one
past the remaining bytes. -/
theorem skip_iff_within_remaining_witness :
    (((⟨[9, 9, 9, 9, 9, 9, 9, 9], 0, 4, 1⟩ : RiffRd).skip 3).1 = true
      ↔ 3 ≤ RiffRd.remaining ⟨[9, 9, 9, 9, 9, 9, 9, 9], 0, 4, 1⟩)
    ∧ ((⟨[9, 9, 9, 9, 9, 9, 9, 9], 2, 4, 1, 3, 1⟩ : Iff85Rd).wf
      ∧ (((⟨[9, 9, 9, 9, 9, 9, 9, 9], 2, 4, 1, 3, 1⟩ : Iff85Rd).skip 5).1 = true
          ↔ 5 ≤ Iff85Rd.remaining ⟨[9, 9, 9, 9, 9, 9, 9, 9], 2, 4, 1, 3, 1⟩)) :=
  ⟨(skip_iff_within_remaining.1 ⟨[9, 9, 9, 9, 9, 9, 9, 9], 0, 4, 1⟩ 3).1,
   by decide,
   (skip_iff_within_remaining.2 ⟨[9, 9, 9, 9, 9, 9, 9, 9], 2, 4, 1, 3, 1⟩ 5
     (by decide)).1⟩

/-! ## C8 — dispatch order -/

section RegistryLemmas

variable {κ : Type} [DecidableEq κ]

lemma mmEqualRange_nil (k : κ) : mmEqualRange ([] : List (κ × Nat)) k = [] := rfl

lemma mmEqualRange_cons (k0 : κ) (v0 : Nat) (rest : List (κ × Nat)) (k2 : κ) :
    mmEqualRange ((k0, v0) :: rest) k2 =
      if k0 = k2 then v0 :: mmEqualRange rest k2 else mmEqualRange rest k2 := by
  by_cases h : k0 = k2 <;> simp [mmEqualRange, List.filter_cons, h]

lemma mmEqualRange_insert_self (t : List (κ × Nat)) (k : κ) (v : Nat) :
    mmEqualRange (mmInsert t k v) k = v :: mmEqualRange t k := by
  induction t with
  | nil => simp [mmInsert, mmEqualRange_cons, mmEqualRange_nil]
  | cons hd rest ih =>
      obtain ⟨k0, v0⟩ := hd
      by_cases h0 : k0 = k
      · simp [mmInsert, h0, mmEqualRange_cons]
      · simp [mmInsert, h0, mmEqualRange_cons, ih]

lemma mmEqualRange_insert_other (t : List (κ × Nat)) (k k2 : κ) (v : Nat)
    (h : ¬k = k2) :
    mmEqualRange (mmInsert t k v) k2 = mmEqualRange t k2 := by
  induction t with
  | nil => simp [mmInsert, mmEqualRange_cons, h]
  | cons hd rest ih =>
      obtain ⟨k0, v0⟩ := hd
      by_cases h0 : k0 = k
      · subst h0
        simp [mmInsert, mmEqualRange_cons, h]
      · simp [mmInsert, h0, mmEqualRange_cons, ih]

/-- Folding a list of insertions into a table: `equal_range` sees the
new registrations for a key newest-first, in front of whatever the
table already held for that key. -/
lemma mmEqualRange_foldl (inserts : List (κ × Nat)) (t : List (κ × Nat)) (k : κ) :
    mmEqualRange (inserts.foldl (fun acc p => mmInsert acc p.1 p.2) t) k =
      ((inserts.filter (fun p => p.1 = k)).map (fun p => p.2)).reverse
        ++ mmEqualRange t k := by
  induction inserts generalizing t with
  | nil => simp
  | cons p rest ih =>
      simp only [List.foldl_cons]
      rw [ih]
      by_cases h : p.1 = k
      · rw [h, mmEqualRange_insert_self]
        simp [List.filter_cons, h]
      · rw [mmEqualRange_insert_other _ _ _ _ h]
        simp [List.filter_cons, h]

end RegistryLemmas

/-- The FORM-tier registrations as key/value pairs, in order. -/
def formPairs (ops : List RegOp) : List ((FourCC × FourCC) × Nat) :=
  ops.filterMap (fun op =>
    match op with
    | .inForm f c h => some ((f, c), h)
    | _ => none)

/-- The container-tier registrations as key/value pairs, in order. -/
def containerPairs (ops : List RegOp) : List ((FourCC × FourCC) × Nat) :=
  ops.filterMap (fun op =>
    match op with
    | .inContainer c i h => some ((c, i), h)
    | _ => none)

/-- The global-tier registrations as key/value pairs, in order. -/
def globalPairs (ops : List RegOp) : List (FourCC × Nat) :=
  ops.filterMap (fun op =>
    match op with
    | .global c h => some (c, h)
    | _ => none)

lemma build_tables : ∀ (ops : List RegOp) (r : Registry),
    (ops.foldl Registry.apply r).formHandlers =
      (formPairs ops).foldl (fun acc p => mmInsert acc p.1 p.2) r.formHandlers
    ∧ (ops.foldl Registry.apply r).containerHandlers =
      (containerPairs ops).foldl (fun acc p => mmInsert acc p.1 p.2) r.containerHandlers
    ∧ (ops.foldl Registry.apply r).globalHandlers =
      (globalPairs ops).foldl (fun acc p => mmInsert acc p.1 p.2) r.globalHandlers
  | [], _ => ⟨rfl, rfl, rfl⟩
  | op :: ops, r => by
      obtain ⟨e1, e2, e3⟩ := build_tables ops (r.apply op)
      cases op with
      | inForm f c h =>
          refine ⟨?_, ?_, ?_⟩ <;>
            simpa [formPairs, containerPairs, globalPairs, Registry.apply,
                   Registry.onChunkInForm] using
              (by first
                  | exact e1
                  | exact e2
                  | exact e3)
      | inContainer c i h =>
          refine ⟨?_, ?_, ?_⟩ <;>
            simpa [formPairs, containerPairs, globalPairs, Registry.apply,
                   Registry.onChunkInContainer] using
              (by first
                  | exact e1
                  | exact e2
                  | exact e3)
      | global c h =>
          refine ⟨?_, ?_, ?_⟩ <;>
            simpa [formPairs, containerPairs, globalPairs, Registry.apply,
                   Registry.onChunk] using
              (by first
                  | exact e1
                  | exact e2
                  | exact e3)

lemma formRegs_eq (ops : List RegOp) (f id : FourCC) :
    formRegs ops f id =
      ((formPairs ops).filter (fun p => p.1 = (f, id))).map (fun p => p.2) := by
  induction ops with
  | nil => rfl
  | cons op ops ih =>
      cases op with
      | inForm f0 c0 h =>
          by_cases hm : f0 = f ∧ c0 = id
          · simp [formRegs, formPairs, List.filterMap_cons, List.filter_cons,
                  hm.1, hm.2, Prod.ext_iff] at *
            exact ih
          · have : ¬((f0, c0) = (f, id)) := by
              simp [Prod.ext_iff]
              intro h1 h2
              exact hm ⟨h1, h2⟩
            simp [formRegs, formPairs, List.filterMap_cons, List.filter_cons,
                  hm, this] at *
            exact ih
      | inContainer c0 i0 h =>
          simpa [formRegs, formPairs, List.filterMap_cons] using ih
      | global c0 h =>
          simpa [formRegs, formPairs, List.filterMap_cons] using ih

lemma containerRegs_eq (ops : List RegOp) (c id : FourCC) :
    containerRegs ops c id =
      ((containerPairs ops).filter (fun p => p.1 = (c, id))).map (fun p => p.2) := by
  induction ops with
  | nil => rfl
  | cons op ops ih =>
      cases op with
      | inContainer c0 i0 h =>
          by_cases hm : c0 = c ∧ i0 = id
          · simp [containerRegs, containerPairs, List.filterMap_cons,
                  List.filter_cons, hm.1, hm.2, Prod.ext_iff] at *
            exact ih
          · have : ¬((c0, i0) = (c, id)) := by
              simp [Prod.ext_iff]
              intro h1 h2
              exact hm ⟨h1, h2⟩
            simp [containerRegs, containerPairs, List.filterMap_cons,
                  List.filter_cons, hm, this] at *
            exact ih
      | inForm f0 c0 h =>
          simpa [containerRegs, containerPairs, List.filterMap_cons] using ih
      | global c0 h =>
          simpa [containerRegs, containerPairs, List.filterMap_cons] using ih

lemma globalRegs_eq (ops : List RegOp) (id : FourCC) :
    globalRegs ops id =
      ((globalPairs ops).filter (fun p => p.1 = id)).map (fun p => p.2) := by
  induction ops with
  | nil => rfl
  | cons op ops ih =>
      cases op with
      | global c0 h =>
          by_cases hm : c0 = id
          · simp [globalRegs, globalPairs, List.filterMap_cons,
                  List.filter_cons, hm] at *
            exact ih
          · simp [globalRegs, globalPairs, List.filterMap_cons,
                  List.filter_cons, hm] at *
            exact ih
      | inForm f0 c0 h =>
          simpa [globalRegs, globalPairs, List.filterMap_cons] using ih
      | inContainer c0 i0 h =>
          simpa [globalRegs, globalPairs, List.filterMap_cons] using ih

def ccAAAA : FourCC := fourccOfChars 'A' 'A' 'A' 'A'

/-- C8 counterexample: registering two global handlers for the same
identifier, `0` first then `1`, and emitting one event for that
identifier invokes `1` before `0` — `unordered_multimap` places the
newer element at the head of its equal-key group (libstdc++), so the
within-tier invocation order is the *reverse* of registration order,
not registration order as the claim states. -/
theorem emit_registration_order_counterexample :
    Registry.emit (Registry.build [RegOp.global ccAAAA 0, RegOp.global ccAAAA 1])
        ⟨ccAAAA, none, none⟩ = [1, 0]
    ∧ ([1, 0] : List Nat) ≠ [0, 1] := by
  exact ⟨rfl, by decide⟩

/-- C8 as amended: `emit` invokes first the FORM-scoped handlers
matching `(current form, chunk id)`, then the container-scoped handlers
matching `(current container, chunk id)`, then the global handlers for
the chunk id — and within each tier the handlers registered for the
same key run in *reverse* registration order. -/
theorem emit_tier_and_group_order :
    ∀ (ops : List RegOp) (ev : EventCtx),
      Registry.emit (Registry.build ops) ev =
        (match ev.currentForm with
         | some f => (formRegs ops f ev.id).reverse
         | none => []) ++
        (match ev.currentContainer with
         | some c => (containerRegs ops c ev.id).reverse
         | none => []) ++
        (globalRegs ops ev.id).reverse := by
  intro ops ev
  obtain ⟨e1, e2, e3⟩ := build_tables ops Registry.empty
  obtain ⟨evid, cf, cc⟩ := ev
  simp only [Registry.emit, Registry.build]
  cases cf with
  | none =>
      cases cc with
      | none =>
          dsimp only
          rw [e3, mmEqualRange_foldl, globalRegs_eq]
          simp [Registry.empty, mmEqualRange]
      | some c =>
          dsimp only
          rw [e2, e3, mmEqualRange_foldl, mmEqualRange_foldl,
              containerRegs_eq, globalRegs_eq]
          simp [Registry.empty, mmEqualRange]
  | some f =>
      cases cc with
      | none =>
          dsimp only
          rw [e1, e3, mmEqualRange_foldl, mmEqualRange_foldl,
              formRegs_eq, globalRegs_eq]
          simp [Registry.empty, mmEqualRange]
      | some c =>
          dsimp only
          rw [e1, e2, e3, mmEqualRange_foldl, mmEqualRange_foldl, mmEqualRange_foldl,
              formRegs_eq, containerRegs_eq, globalRegs_eq]
          simp [Registry.empty, mmEqualRange]

/-! ## C7 — RF64 size-override resolution -/

lemma indexGet_indexSet (l : List (FourCC × Nat)) (k : FourCC) (v : Nat) :
    indexGet (indexSet l k v) k = v := by
  induction l with
  | nil => simp [indexSet, indexGet, alistFind]
  | cons hd rest ih =>
      obtain ⟨k0, v0⟩ := hd
      by_cases h : k0 = k
      · simp [indexSet, indexGet, alistFind, h]
      · simpa [indexSet, indexGet, alistFind, h] using ih

/-- The per-identifier FIFO behaviour of `get_size_override`: starting
from index `i` into an identifier's override list, `n` successive
sentinel queries return the list's entries from position `i` on, in
order, followed by the sentinel once the list is exhausted. -/
lemma consumeOverrides_aux (id : FourCC) (fifo : List Nat)
    (hroot : ¬(id = ccRF64 ∨ id = ccRIFF)) :
    ∀ (n : Nat) (st : Rf64State) (i : Nat),
      (id = ccDATA → st.dataSize = 0) →
      (alistFind st.overrideTable id).getD [] = fifo →
      indexGet st.overrideIndex id = i →
      consumeOverrides true st id n =
        (fifo.drop i).take n ++ List.replicate (n - (fifo.length - i)) 4294967295 := by
  intro n
  induction n with
  | zero =>
      intro st i _ _ _
      simp [consumeOverrides]
  | succ n ih =>
      intro st i hdata htab hidx
      have hnotdata : ¬(id = ccDATA ∧ st.dataSize > 0) := by
        rintro ⟨h1, h2⟩
        have := hdata h1
        omega
      simp only [consumeOverrides, getSizeOverride]
      rw [if_neg (by simp), if_neg hroot, if_neg hnotdata]
      cases hfind : alistFind st.overrideTable id with
      | none =>
          rw [hfind] at htab
          simp only [Option.getD_none] at htab
          subst htab
          have step := ih st i hdata (by rw [hfind]; rfl) hidx
          simp [step, List.replicate_succ]
      | some vs =>
          rw [hfind] at htab
          simp only [Option.getD_some] at htab
          subst htab
          dsimp only
          by_cases hemp : vs = []
          · subst hemp
            rw [if_neg (by simp)]
            have step := ih st i hdata (by rw [hfind]; rfl) hidx
            simp [step, List.replicate_succ]
          · rw [if_pos hemp, hidx]
            by_cases hlt : i < vs.length
            · rw [if_pos hlt]
              dsimp only
              have step := ih
                { st with overrideIndex := indexSet st.overrideIndex id (i + 1) }
                (i + 1) hdata (by rw [hfind]; rfl)
                (indexGet_indexSet st.overrideIndex id (i + 1))
              rw [step, List.drop_eq_getElem_cons hlt,
                  List.getD_eq_getElem vs 0 hlt, List.take_succ_cons]
              have harith : n - (vs.length - (i + 1)) = (n + 1) - (vs.length - i) := by
                omega
              rw [harith]
              simp
            · rw [if_neg hlt]
              dsimp only
              have step := ih
                { st with overrideIndex := indexSet st.overrideIndex id i } i
                hdata (by rw [hfind]; rfl)
                (indexGet_indexSet st.overrideIndex id i)
              have hdrop : vs.drop i = [] :=
                List.drop_eq_nil_of_le (by omega)
              have hlen : vs.length - i = 0 := by omega
              simp [step, hdrop, hlen, List.replicate_succ]

/-- The ds64 state of the C7 counterexample: an RF64 parse whose ds64
declared root size 72 and one table override for the identifier
`RIFF`. -/
def c7state : Rf64State :=
  { riffSize := 72, dataSize := 0, sampleCount := 0,
    overrideTable := [(ccRIFF, [1000])], overrideIndex := [] }

/-- C7 counterexample: in an RF64 parse the root identifier is `RF64`,
yet `get_size_override` hands the authoritative root size to any chunk
whose identifier is `RIFF` as well.  With an unconsumed FIFO entry of
1000 queued for `RIFF`, the claim requires the resolved size 1000; the
code returns 72 and leaves the FIFO untouched. -/
theorem riff_id_gets_root_size_counterexample :
    getSizeOverride true c7state ccRIFF 4294967295 = (72, c7state)
    ∧ alistFind c7state.overrideTable ccRIFF = some [1000]
    ∧ indexGet c7state.overrideIndex ccRIFF = 0
    ∧ (getSizeOverride true c7state ccRIFF 4294967295).1 ≠ 1000
    ∧ ccRIFF ≠ ccRF64 := by
  refine ⟨rfl, rfl, rfl, by decide, by decide⟩

/-- C7 as amended: with the sentinel size `0xFFFFFFFF` in an RF64
parse, `get_size_override` resolves: the ds64 authoritative root size
when the identifier is `RF64` *or `RIFF`* (the code treats the literal
`RIFF` like the root even though the root of an RF64 parse is `RF64`);
the authoritative data size for `data` when non-zero; otherwise the
identifier's FIFO entries in source order, and the sentinel itself once
no override remains.  Without the sentinel, or outside RF64 mode, the
32-bit size passes through unchanged. -/
theorem size_override_resolution :
    ∀ (st : Rf64State) (id : FourCC) (size32 : Nat),
      (size32 ≠ 4294967295 → getSizeOverride true st id size32 = (size32, st))
      ∧ getSizeOverride false st id size32 = (size32, st)
      ∧ ((id = ccRF64 ∨ id = ccRIFF) →
          getSizeOverride true st id 4294967295 = (st.riffSize, st))
      ∧ (id = ccDATA → 0 < st.dataSize →
          getSizeOverride true st id 4294967295 = (st.dataSize, st))
      ∧ (¬(id = ccRF64 ∨ id = ccRIFF) → (id = ccDATA → st.dataSize = 0) →
          indexGet st.overrideIndex id = 0 →
          ∀ n, consumeOverrides true st id n =
            ((alistFind st.overrideTable id).getD []).take n
              ++ List.replicate
                   (n - ((alistFind st.overrideTable id).getD []).length)
                   4294967295) := by
  intro st id size32
  refine ⟨?_, ?_, ?_, ?_, ?_⟩
  · intro h
    simp [getSizeOverride, h]
  · simp [getSizeOverride]
  · intro h
    simp [getSizeOverride, h]
  · intro h1 h2
    subst h1
    have hroot : ¬(ccDATA = ccRF64 ∨ ccDATA = ccRIFF) := by decide
    simp [getSizeOverride, hroot, h2]
  · intro hroot hdata hidx n
    have h := consumeOverrides_aux id ((alistFind st.overrideTable id).getD [])
      hroot n st 0 hdata rfl hidx
    simpa using h

/-- Witness for C7 (amended): a passthrough query and a three-query
FIFO run over a two-entry table. -/
def c7wState : Rf64State :=
  { riffSize := 72, dataSize := 0, sampleCount := 0,
    overrideTable := [(fourccOfChars 'o' 'v' 'r' '1', [10, 20])],
    overrideIndex := [] }

theorem size_override_resolution_witness :
    ((997 : Nat) ≠ 4294967295
      ∧ getSizeOverride true c7wState (fourccOfChars 'o' 'v' 'r' '1') 997 =
          (997, c7wState))
    ∧ (¬(fourccOfChars 'o' 'v' 'r' '1' = ccRF64 ∨ fourccOfChars 'o' 'v' 'r' '1' = ccRIFF)
      ∧ consumeOverrides true c7wState (fourccOfChars 'o' 'v' 'r' '1') 3 =
          [10, 20, 4294967295]) := by
  refine ⟨⟨by decide, ?_⟩, ⟨by decide, ?_⟩⟩
  · exact (size_override_resolution c7wState (fourccOfChars 'o' 'v' 'r' '1') 997).1
      (by decide)
  · have h := (size_override_resolution c7wState
      (fourccOfChars 'o' 'v' 'r' '1') 0).2.2.2.2 (by decide) (by decide) rfl 3
    exact h.trans (by decide)

/-! ## C10 -/

/-- C10: `chunk_reader::read_string(0)` returns `std::nullopt` before
touching the underlying reader — for every reader state, including
ones with `remaining() > 0` — never an empty string. -/
theorem read_string_zero_returns_none :
    ∀ s : RiffRd, s.readString 0 = .ok (none, s) := by
  intro s
  rfl

end LibIff
